import Mathlib

/-!
Verification of the sampling/caching/dispatch engine of the noise-functions
demo (`src/app.rs`), as a shallow embedding in Lean.

Modelling conventions:
* `f32` values are modelled by `FVal`: exact rationals for finite values
  (rounding is idealized as exact), two signed infinities and a single NaN.
  This is enough for the structural, saturation and totality properties
  considered here; none of them depend on rounding of finite arithmetic.
* Buffer writes `values[i] = v` are fallible (`Option`): an out-of-bounds
  index models a Rust panic, so `none` outcomes represent raised errors.
* The opaque noise evaluators (`Config::sampler2()` etc. of the external
  `noise_functions_config` crate) are an abstract `Resolvers` record of
  functions `Config → Option Sampler`; theorems quantify over it.
* UI drawing and wall-clock timing (`elapsed`) are outside the model; the
  call `texture.set(...)` is modelled by storing the handed-over pixel list
  in the `texture` field of the application state.
-/

namespace NoiseDemo

/-- Model of an `f32` scalar: NaN, signed infinity, or a finite value
(represented exactly as a rational; rounding is idealized). -/
inductive FVal where
  | nan : FVal
  | inf (pos : Bool) : FVal
  | fin (q : ℚ) : FVal
  deriving DecidableEq, Repr

/-- IEEE-style multiplication on the `f32` model. -/
def fmul : FVal → FVal → FVal
  | .nan, _ => .nan
  | _, .nan => .nan
  | .inf p, .inf q => .inf (p == q)
  | .inf p, .fin q => if q = 0 then .nan else .inf (p == decide (0 < q))
  | .fin q, .inf p => if q = 0 then .nan else .inf (p == decide (0 < q))
  | .fin a, .fin b => .fin (a * b)

/-- IEEE-style addition on the `f32` model. -/
def fadd : FVal → FVal → FVal
  | .nan, _ => .nan
  | _, .nan => .nan
  | .inf p, .inf q => if p == q then .inf p else .nan
  | .inf p, .fin _ => .inf p
  | .fin _, .inf p => .inf p
  | .fin a, .fin b => .fin (a + b)

/-- Rust `as u8` saturating cast from `f32`: NaN maps to 0, the value is
truncated toward zero and clamped to `[0, 255]`. -/
def castU8 : FVal → ℕ
  | .nan => 0
  | .inf pos => if pos then 255 else 0
  | .fin q => if q ≤ 0 then 0 else min 255 q.floor.toNat

/-- `egui::Color32`, restricted to the rgb channels (both constructors used
by the program set alpha to 255). -/
structure Color32 where
  r : ℕ
  g : ℕ
  b : ℕ
  deriving DecidableEq, Repr

def Color32.from_rgb (r g b : ℕ) : Color32 := ⟨r, g, b⟩

def Color32.from_gray (v : ℕ) : Color32 := ⟨v, v, v⟩

/-- The `Noise` enum of `noise_functions_config`; its variants are exactly
the arms of the exhaustive `match` at `app.rs:679-691`. -/
inductive Noise where
  | Value | ValueCubic | Perlin | Simplex | OpenSimplex2 | OpenSimplex2s
  | CellValue | FastCellValue | CellDistance | FastCellDistance
  | FastCellDistanceSq
  deriving DecidableEq, Repr

/-- The `Fractal` enum; `None` and `PingPong` appear in `app.rs`, the full
variant list follows the spec (§3: none, fbm, ridged, ping-pong). -/
inductive Fractal where
  | None | Fbm | Ridged | PingPong
  deriving DecidableEq, Repr

/-- The `Improve` tag; only `Xy` is named in `app.rs`. The engine carries it
opaquely, so the exact variant list is irrelevant to the claims. -/
inductive Improve where
  | Xy
  deriving DecidableEq, Repr

/-- The `CellIndex` tag; `I0` and `I1` are named in `app.rs`. -/
inductive CellIndex where
  | I0 | I1
  deriving DecidableEq, Repr

/-- The `DistanceFn` tag; only `Euclidean` is named in `app.rs`. -/
inductive DistanceFn where
  | Euclidean
  deriving DecidableEq, Repr

/-- The `DistanceReturnType` tag; only `Index0` is named in `app.rs`. -/
inductive DistanceReturnType where
  | Index0
  deriving DecidableEq, Repr

/-- `noise_functions_config::Config`, fields as in `app.rs:57-84`. -/
structure Config where
  noise : Noise
  seed : ℤ
  frequency : ℚ
  fractal : Fractal
  lacunarity : ℚ
  octaves : ℕ
  gain : ℚ
  ping_pong_strength : ℚ
  weighted_strength : ℚ
  improve : Improve
  jitter : ℚ
  value_index : CellIndex
  distance_fn : DistanceFn
  distance_indices : CellIndex × CellIndex
  distance_return_type : DistanceReturnType
  tileable : Bool
  tile_width : ℚ
  tile_height : ℚ
  deriving DecidableEq, Repr

/-- `Dimension` (`app.rs:106-110`). -/
inductive Dimension where
  | D2 | D3 | D4
  deriving DecidableEq, Repr

/-- `Settings` (`app.rs:22-33`). -/
structure Settings where
  config : Config
  texture_size : ℕ
  dimension : Dimension
  x : ℚ
  y : ℚ
  z : ℚ
  w : ℚ
  simd : Bool
  show_tiles : Bool
  link_tile_size_to_frequency : Bool
  deriving DecidableEq, Repr

/-- `DEFAULT_CONFIG` (`app.rs:57-84`). -/
def DEFAULT_CONFIG : Config where
  noise := .Simplex
  seed := 0
  frequency := 3
  fractal := .None
  lacunarity := 2
  octaves := 3
  gain := 1/2
  ping_pong_strength := 2
  weighted_strength := 0
  improve := .Xy
  jitter := 1
  value_index := .I0
  distance_fn := .Euclidean
  distance_indices := (.I0, .I1)
  distance_return_type := .Index0
  tileable := true
  tile_width := 3
  tile_height := 3

/-- `DEFAULT_SETTINGS` (`app.rs:86-97`). -/
def DEFAULT_SETTINGS : Settings where
  config := DEFAULT_CONFIG
  texture_size := 295
  dimension := .D2
  x := 0
  y := 0
  z := 0
  w := 0
  simd := false
  show_tiles := true
  link_tile_size_to_frequency := true

/-- `Cache` (`app.rs:36-40`). -/
structure Cache where
  values : List FVal
  pixels : List Color32
  size : ℕ
  deriving DecidableEq, Repr

/-- `Cache::default()`. -/
def Cache.default : Cache := ⟨[], [], 0⟩

/-- `Cache::resize` (`app.rs:43-54`): no-op when the size is unchanged,
otherwise fresh buffers of the new length, scalars zeroed and pixels set to
magenta `from_rgb(255, 0, 255)`. -/
def Cache.resize (c : Cache) (new_size : ℕ) : Cache :=
  if new_size = c.size then c
  else
    { values := List.replicate new_size (.fin 0)
      pixels := List.replicate new_size (Color32.from_rgb 255 0 255)
      size := new_size }

/-- Fallible buffer store `l[i] = v`: `none` models the Rust panic on an
out-of-bounds index. -/
def writeAt {β : Type} (l : List β) (i : ℕ) (v : β) : Option (List β) :=
  if i < l.length then some (l.set i v) else none

/-- `for i in 0..n` with a fallible body, threading an accumulator:
`forN body n acc` runs `body` on `0, 1, …, n-1` in order. -/
def forN {β : Type} (body : β → ℕ → Option β) : ℕ → β → Option β
  | 0, acc => some acc
  | n + 1, acc => (forN body n acc).bind (fun acc => body acc n)

/-- The inner `sample` function of `App::image_preview_contents`
(`app.rs:571-603`): fills `values` over the `size × size` grid, writing the
cell of column `x` and row `y` at linear index `y * size + x`, with the
tileable or the centered non-tileable coordinate mapping. -/
def sample (values : List FVal) (settings : Settings) (f : ℚ → ℚ → FVal) :
    Option (List FVal) :=
  let size := settings.texture_size
  let x_shift := settings.x
  let y_shift := settings.y
  let scalar : ℚ := 1 / (size : ℚ)
  if settings.config.tileable then
    forN (fun values y =>
      forN (fun values x =>
        writeAt values (y * size + x)
          (f ((x : ℚ) * scalar + x_shift) ((y : ℚ) * scalar + y_shift)))
        size values)
      size values
  else
    let scalar_times_two := scalar * 2
    forN (fun values y =>
      forN (fun values x =>
        writeAt values (y * size + x)
          (f ((x : ℚ) * scalar_times_two - 1 + x_shift)
             ((y : ℚ) * scalar_times_two - 1 + y_shift)))
        size values)
      size values

/-- The per-value normalization `value_01` (`app.rs:679-691`): signed-range
kinds are remapped by `value * 0.5 + 0.5`, distance kinds pass through. -/
def value_01 (noise : Noise) (value : FVal) : FVal :=
  match noise with
  | .Value | .ValueCubic | .Perlin | .Simplex | .OpenSimplex2
  | .OpenSimplex2s | .CellValue | .FastCellValue =>
      fadd (fmul value (.fin (1/2))) (.fin (1/2))
  | .CellDistance | .FastCellDistance | .FastCellDistanceSq => value

/-- `value_255` (`app.rs:693`): `(value_01 * 255.0) as u8`. -/
def value_255 (noise : Noise) (value : FVal) : ℕ :=
  castU8 (fmul (value_01 noise value) (.fin 255))

/-- The normalization loop of `App::image_preview_contents`
(`app.rs:674-697`): for every grid cell, reads `cache.values[i]` and writes
the gray pixel at the same index. Runs unconditionally after sampling. -/
def normalize_pass (values : List FVal) (pixels : List Color32) (size : ℕ)
    (noise : Noise) : Option (List Color32) :=
  forN (fun pixels x =>
    forN (fun pixels y =>
      match values[x * size + y]? with
      | some value =>
          writeAt pixels (x * size + y) (Color32.from_gray (value_255 noise value))
      | none => none)
      size pixels)
    size pixels

/-- A resolved sampler: a pure function from a coordinate vector to a
scalar. -/
def Sampler : Type := List ℚ → FVal

/-- The opaque sampler constructors of `noise_functions_config::Config`
(`sampler2`, `sampler3`, `sampler4` and their simd `…a` forms), returning
`none` for an unsupported combination. The engine treats them as a pure
black box; theorems quantify over this record. -/
structure Resolvers where
  sampler2 : Config → Option Sampler
  sampler3 : Config → Option Sampler
  sampler4 : Config → Option Sampler
  sampler2a : Config → Option Sampler
  sampler3a : Config → Option Sampler
  sampler4a : Config → Option Sampler

/-- The sampler-resolution dispatch of `App::image_preview_contents`
(`app.rs:605-669`): selects the sampler by `simd` and `dimension` and closes
over the constant `z`/`w` axes (the simd 3D path passes `[x, y, z, 0.0]`). -/
def dispatch (r : Resolvers) (settings : Settings) : Option (ℚ → ℚ → FVal) :=
  if settings.simd then
    match settings.dimension with
    | .D2 => (r.sampler2a settings.config).map (fun s => fun x y => s [x, y])
    | .D3 => (r.sampler3a settings.config).map
        (fun s => fun x y => s [x, y, settings.z, 0])
    | .D4 => (r.sampler4a settings.config).map
        (fun s => fun x y => s [x, y, settings.z, settings.w])
  else
    match settings.dimension with
    | .D2 => (r.sampler2 settings.config).map (fun s => fun x y => s [x, y])
    | .D3 => (r.sampler3 settings.config).map
        (fun s => fun x y => s [x, y, settings.z])
    | .D4 => (r.sampler4 settings.config).map
        (fun s => fun x y => s [x, y, settings.z, settings.w])

/-- The engine-relevant state of `App` (`app.rs:11-20`); `texture` holds the
pixel list last handed to the display sink via `texture.set`. -/
structure AppState where
  settings : Settings
  texture : List Color32
  changed : Bool
  sample_success : Bool
  cache : Cache

/-- The recompute part of `App::image_preview_contents` (`app.rs:560-706`):
when `changed`, clear it, resize the cache to `size * size`, resolve and (if
resolution succeeds) sample, then unconditionally normalize into the pixel
buffer and hand it to the display sink. `none` models a panic. -/
def image_preview_step (r : Resolvers) (s : AppState) : Option AppState :=
  if s.changed then
    let size := s.settings.texture_size
    let cache := s.cache.resize (size * size)
    match dispatch r s.settings with
    | some f =>
        match sample cache.values s.settings f with
        | some values =>
            match normalize_pass values cache.pixels size s.settings.config.noise with
            | some pixels =>
                some { s with
                  changed := false
                  sample_success := true
                  cache := { values := values, pixels := pixels, size := cache.size }
                  texture := pixels }
            | none => none
        | none => none
    | none =>
        match normalize_pass cache.values cache.pixels size s.settings.config.noise with
        | some pixels =>
            some { s with
              changed := false
              sample_success := false
              cache := { cache with pixels := pixels }
              texture := pixels }
        | none => none
  else some s

/-- The "Frequency" setting update (`app.rs:382-395`): the widget stores the
new value; when linking is active the tile sizes follow. -/
def set_frequency (link_tile_size_to_frequency : Bool) (v : ℚ) (config : Config) :
    Config :=
  let config := { config with frequency := v }
  if link_tile_size_to_frequency then
    { config with tile_width := config.frequency, tile_height := config.frequency }
  else config

/-- The "Tile Width" setting update (`app.rs:431-444`). -/
def set_tile_width (link_tile_size_to_frequency : Bool) (v : ℚ) (config : Config) :
    Config :=
  let config := { config with tile_width := v }
  if link_tile_size_to_frequency then
    { config with tile_height := config.tile_width, frequency := config.tile_width }
  else config

/-- The "Tile Height" setting update (`app.rs:446-459`). -/
def set_tile_height (link_tile_size_to_frequency : Bool) (v : ℚ) (config : Config) :
    Config :=
  let config := { config with tile_height := v }
  if link_tile_size_to_frequency then
    { config with tile_width := config.tile_height, frequency := config.tile_height }
  else config

/-- The x coordinate the fill loop hands to the sampler for column index
`ix`, as computed at `app.rs:586` and `app.rs:597`. -/
def sample_x (settings : Settings) (ix : ℕ) : ℚ :=
  if settings.config.tileable then
    (ix : ℚ) * (1 / (settings.texture_size : ℚ)) + settings.x
  else
    (ix : ℚ) * (1 / (settings.texture_size : ℚ) * 2) - 1 + settings.x

/-- The y coordinate the fill loop hands to the sampler for row index
`iy`, as computed at `app.rs:587` and `app.rs:598`. -/
def sample_y (settings : Settings) (iy : ℕ) : ℚ :=
  if settings.config.tileable then
    (iy : ℚ) * (1 / (settings.texture_size : ℚ)) + settings.y
  else
    (iy : ℚ) * (1 / (settings.texture_size : ℚ) * 2) - 1 + settings.y

/-- Well-formedness of the cache: both buffers have length `size`. Holds
for the default cache and is preserved by `resize` and the render pass. -/
def CacheWF (c : Cache) : Prop :=
  c.values.length = c.size ∧ c.pixels.length = c.size

/-! ### Generic lemmas about the nested grid loops -/

/-- One iteration body of a grid loop: compute the optional cell value
`g a b` and store it at linear index `a * size + b`. -/
def gridBody {β : Type} (size a : ℕ) (g : ℕ → ℕ → Option β) (l : List β)
    (b : ℕ) : Option (List β) :=
  match g a b with
  | some v => writeAt l (a * size + b) v
  | none => none

/-- The generic nested grid loop both passes of the render step reduce to. -/
def gridW {β : Type} (size : ℕ) (g : ℕ → ℕ → Option β) (init : List β) :
    Option (List β) :=
  forN (fun l a => forN (gridBody size a g) size l) size init

/-- The buffer layout asserted by claim C2, following the claim's words
rather than the source: the value computed for grid cell `(ix, iy)` sits at
linear index `ix * N + iy`, i.e. index `i` holds the value of the cell with
x index `i / N` and y index `i % N`. -/
def claim_C2_layout (settings : Settings) (f : ℚ → ℚ → FVal) : List FVal :=
  (List.range (settings.texture_size * settings.texture_size)).map
    (fun i => f (sample_x settings (i / settings.texture_size))
                (sample_y settings (i % settings.texture_size)))

/-- The classification table asserted by claim C4, following the claim's
words: `true` for the signed-range kinds (value, value-cubic, perlin,
simplex, the open-simplex variants and the cell-value kinds), `false` for
the distance-based kinds (cell-distance, fast-cell-distance,
fast-cell-distance-squared). Being a `Bool`, it assigns every kind exactly
one of the two policies. -/
def claim_signed_kind : Noise → Bool
  | .Value | .ValueCubic | .Perlin | .Simplex | .OpenSimplex2
  | .OpenSimplex2s | .CellValue | .FastCellValue => true
  | .CellDistance | .FastCellDistance | .FastCellDistanceSq => false

/-- Default settings on a 2×2 tileable grid with zero shift. -/
def c2_settings : Settings := { DEFAULT_SETTINGS with texture_size := 2 }

/-- Default settings on a 2×2 non-tileable grid with zero shift. -/
def c3_settings : Settings :=
  { DEFAULT_SETTINGS with
    texture_size := 2
    config := { DEFAULT_CONFIG with tileable := false } }

/-- A resolver record in which every `(config, dimension, simd)` request is
unsupported. -/
def unsupported_resolvers : Resolvers :=
  ⟨fun _ => none, fun _ => none, fun _ => none,
   fun _ => none, fun _ => none, fun _ => none⟩

/-- A resolver record whose scalar 2D sampler is the constant-zero field;
everything else is unsupported. -/
def const_resolvers : Resolvers :=
  ⟨fun _ => some (fun _ => .fin 0), fun _ => none, fun _ => none,
   fun _ => none, fun _ => none, fun _ => none⟩

/-- A concrete dirty application state with a 1×1 viewport whose cache holds
one magenta pixel from a previous pass. -/
def c1_state : AppState where
  settings := { DEFAULT_SETTINGS with texture_size := 1 }
  texture := [Color32.from_rgb 255 0 255]
  changed := true
  sample_success := true
  cache := ⟨[.fin 0], [Color32.from_rgb 255 0 255], 1⟩

/-- A concrete dirty application state for the determinism claim. -/
def c5_state_a : AppState where
  settings := { DEFAULT_SETTINGS with texture_size := 1 }
  texture := []
  changed := true
  sample_success := false
  cache := ⟨[.fin 5], [Color32.from_rgb 1 2 3], 1⟩

/-- A second concrete dirty application state with the same settings as
`c5_state_a` but a different cache and texture history. -/
def c5_state_b : AppState where
  settings := { DEFAULT_SETTINGS with texture_size := 1 }
  texture := [Color32.from_rgb 9 9 9]
  changed := true
  sample_success := true
  cache := ⟨[], [], 0⟩

/-- A concrete dirty application state with a zero-resolution viewport. -/
def c7_state : AppState where
  settings := { DEFAULT_SETTINGS with texture_size := 0 }
  texture := []
  changed := true
  sample_success := true
  cache := ⟨[], [], 0⟩

/-- A concrete application state whose dirty flag is clear. -/
def c10_state : AppState where
  settings := DEFAULT_SETTINGS
  texture := []
  changed := false
  sample_success := true
  cache := ⟨[], [], 0⟩

theorem row_index_lt {a b n : ℕ} (ha : a < n) (hb : b < n) :
    a * n + b < n * n := by
  calc a * n + b < a * n + n := by omega
    _ = (a + 1) * n := by ring
    _ ≤ n * n := Nat.mul_le_mul_right n (by omega)

theorem row_index_div {a b n : ℕ} (hb : b < n) : (a * n + b) / n = a := by
  rw [Nat.mul_comm a n, Nat.mul_add_div (by omega), Nat.div_eq_of_lt hb]
  omega

theorem row_index_mod {a b n : ℕ} (hb : b < n) : (a * n + b) % n = b := by
  rw [Nat.mul_comm a n, Nat.mul_add_mod]
  exact Nat.mod_eq_of_lt hb

theorem index_decompose {i n : ℕ} (h : i < n * n) :
    (i / n) * n + (i % n) = i ∧ i / n < n ∧ i % n < n := by
  have hn : 0 < n := by
    rcases Nat.eq_zero_or_pos n with h0 | h0
    · subst h0; omega
    · exact h0
  refine ⟨?_, ?_, Nat.mod_lt _ hn⟩
  · rw [Nat.mul_comm (i / n) n]; exact Nat.div_add_mod i n
  · exact (Nat.div_lt_iff_lt_mul hn).mpr h

/-- Effect of one row of a grid loop: cells `b < n` of row `a` receive
`g a b`, all other positions keep their value. -/
theorem forN_row_spec {β : Type} (size a : ℕ) (g : ℕ → ℕ → Option β) :
    ∀ (n : ℕ) (l : List β), (∀ b, b < n → (g a b).isSome) →
      a * size + n ≤ l.length →
      ∃ r, forN (gridBody size a g) n l = some r ∧
        r.length = l.length ∧
        (∀ j, (j < a * size ∨ a * size + n ≤ j) → r[j]? = l[j]?) ∧
        (∀ b, b < n → r[a * size + b]? = g a b) := by
  intro n
  induction n with
  | zero =>
    intro l _ _
    exact ⟨l, rfl, rfl, fun j _ => rfl, fun b hb => absurd hb (by omega)⟩
  | succ n ih =>
    intro l hg hlen
    obtain ⟨r₀, hr₀, hlen₀, hold₀, hnew₀⟩ :=
      ih l (fun b hb => hg b (by omega)) (by omega)
    have hsome : (g a n).isSome := hg n (by omega)
    obtain ⟨v, hv⟩ := Option.isSome_iff_exists.mp hsome
    have hidx : a * size + n < r₀.length := by omega
    refine ⟨r₀.set (a * size + n) v, ?_, ?_, ?_, ?_⟩
    · show (forN (gridBody size a g) n l).bind _ = _
      rw [hr₀]
      show gridBody size a g r₀ n = _
      unfold gridBody
      rw [hv]
      simp [writeAt, hidx]
    · rw [List.length_set]; exact hlen₀
    · intro j hj
      rw [List.getElem?_set_ne (by omega)]
      exact hold₀ j (by omega)
    · intro b hb
      rcases Nat.lt_succ_iff_lt_or_eq.mp hb with hb' | hb'
      · rw [List.getElem?_set_ne (by omega)]
        exact hnew₀ b hb'
      · subst hb'
        rw [List.getElem?_set_self hidx, hv]

/-- Effect of the first `n` rows of the grid loop. -/
theorem gridW_partial {β : Type} (size : ℕ) (g : ℕ → ℕ → Option β) :
    ∀ (n : ℕ) (init : List β), n ≤ size →
      (∀ a b, a < n → b < size → (g a b).isSome) →
      size * size ≤ init.length →
      ∃ r, forN (fun l a => forN (gridBody size a g) size l) n init = some r ∧
        r.length = init.length ∧
        (∀ j, n * size ≤ j → r[j]? = init[j]?) ∧
        (∀ a b, a < n → b < size → r[a * size + b]? = g a b) := by
  intro n
  induction n with
  | zero =>
    intro init _ _ _
    exact ⟨init, rfl, rfl, fun j _ => rfl, fun a b ha _ => absurd ha (by omega)⟩
  | succ n ih =>
    intro init hn hg hlen
    obtain ⟨r₀, hr₀, hlen₀, hold₀, hnew₀⟩ :=
      ih init (by omega) (fun a b ha hb => hg a b (by omega) hb) hlen
    have hexp : (n + 1) * size = n * size + size := by ring
    have hle : (n + 1) * size ≤ size * size := Nat.mul_le_mul_right size hn
    have hrow : n * size + size ≤ r₀.length := by omega
    obtain ⟨r, hr, hlenr, holdr, hnewr⟩ :=
      forN_row_spec size n g size r₀ (fun b hb => hg n b (by omega) hb) hrow
    refine ⟨r, ?_, ?_, ?_, ?_⟩
    · show (forN _ n init).bind _ = _
      rw [hr₀]
      exact hr
    · rw [hlenr]; exact hlen₀
    · intro j hj
      rw [holdr j (Or.inr (by omega))]
      exact hold₀ j (by omega)
    · intro a b ha hb
      rcases Nat.lt_succ_iff_lt_or_eq.mp ha with ha' | ha'
      · have h1 : (a + 1) * size = a * size + size := by ring
        have h2 : (a + 1) * size ≤ n * size := Nat.mul_le_mul_right size (by omega)
        have hj : a * size + b < n * size := by omega
        rw [holdr _ (Or.inl hj)]
        exact hnew₀ a b ha' hb
      · subst ha'
        exact hnewr b hb

/-- Full effect of the nested grid loop: every cell `(a, b)` of the
`size × size` grid receives `g a b` at linear index `a * size + b`, the rest
of the buffer is untouched, and the loop never fails. -/
theorem gridW_spec {β : Type} (size : ℕ) (g : ℕ → ℕ → Option β)
    (init : List β) (hg : ∀ a b, a < size → b < size → (g a b).isSome)
    (hlen : size * size ≤ init.length) :
    ∃ r, gridW size g init = some r ∧
      r.length = init.length ∧
      (∀ j, size * size ≤ j → r[j]? = init[j]?) ∧
      (∀ a b, a < size → b < size → r[a * size + b]? = g a b) := by
  obtain ⟨r, hr, h₁, h₂, h₃⟩ := gridW_partial size g size init le_rfl hg hlen
  exact ⟨r, hr, h₁, h₂, h₃⟩

/-! ### The fill and normalize passes as instances of the grid loop -/

theorem sample_eq_gridW (values : List FVal) (settings : Settings)
    (f : ℚ → ℚ → FVal) :
    sample values settings f =
      gridW settings.texture_size
        (fun y x => some (f (sample_x settings x) (sample_y settings y)))
        values := by
  unfold sample gridW gridBody sample_x sample_y
  by_cases h : settings.config.tileable <;> simp [h]

theorem normalize_pass_eq_gridW (values : List FVal) (pixels : List Color32)
    (size : ℕ) (noise : Noise) :
    normalize_pass values pixels size noise =
      gridW size
        (fun x y => (values[x * size + y]?).map
          (fun value => Color32.from_gray (value_255 noise value)))
        pixels := by
  unfold normalize_pass gridW gridBody
  congr 1
  funext l a
  congr 1
  funext l' b
  cases h : values[a * size + b]? <;> simp [h]

/-- Full behaviour of the fill loop `sample`: it succeeds on a buffer of
length at least `N * N`, preserves the length, writes the sampled value of
cell `(ix, iy)` at linear index `iy * N + ix`, and leaves indices at or
beyond `N * N` untouched. -/
theorem sample_spec (values : List FVal) (settings : Settings)
    (f : ℚ → ℚ → FVal)
    (hlen : settings.texture_size * settings.texture_size ≤ values.length) :
    ∃ r, sample values settings f = some r ∧
      r.length = values.length ∧
      (∀ j, settings.texture_size * settings.texture_size ≤ j →
        r[j]? = values[j]?) ∧
      (∀ iy ix, iy < settings.texture_size → ix < settings.texture_size →
        r[iy * settings.texture_size + ix]? =
          some (f (sample_x settings ix) (sample_y settings iy))) := by
  rw [sample_eq_gridW]
  obtain ⟨r, hr, h₁, h₂, h₃⟩ :=
    gridW_spec settings.texture_size
      (fun y x => some (f (sample_x settings x) (sample_y settings y)))
      values (fun a b _ _ => rfl) hlen
  exact ⟨r, hr, h₁, h₂, fun iy ix hy hx => h₃ iy ix hy hx⟩

/-- Index form of `sample_spec`: cell values addressed by the linear index
`i`, whose column is `i % N` and row is `i / N`. -/
theorem sample_spec_idx (values : List FVal) (settings : Settings)
    (f : ℚ → ℚ → FVal)
    (hlen : settings.texture_size * settings.texture_size ≤ values.length) :
    ∃ r, sample values settings f = some r ∧
      r.length = values.length ∧
      (∀ j, settings.texture_size * settings.texture_size ≤ j →
        r[j]? = values[j]?) ∧
      (∀ i, i < settings.texture_size * settings.texture_size →
        r[i]? = some (f (sample_x settings (i % settings.texture_size))
          (sample_y settings (i / settings.texture_size)))) := by
  obtain ⟨r, hr, h₁, h₂, h₃⟩ := sample_spec values settings f hlen
  refine ⟨r, hr, h₁, h₂, fun i hi => ?_⟩
  obtain ⟨hdec, hdiv, hmod⟩ := index_decompose hi
  have := h₃ (i / settings.texture_size) (i % settings.texture_size) hdiv hmod
  rwa [hdec] at this

/-- Full behaviour of the normalization loop: it succeeds when both buffers
have length at least `N * N`, preserves the pixel-buffer length, writes the
gray pixel for `values[i]` at every index `i < N * N`, and leaves the rest
untouched. -/
theorem normalize_pass_spec (values : List FVal) (pixels : List Color32)
    (size : ℕ) (noise : Noise) (hv : size * size ≤ values.length)
    (hp : size * size ≤ pixels.length) :
    ∃ r, normalize_pass values pixels size noise = some r ∧
      r.length = pixels.length ∧
      (∀ j, size * size ≤ j → r[j]? = pixels[j]?) ∧
      (∀ i, i < size * size →
        r[i]? = (values[i]?).map
          (fun value => Color32.from_gray (value_255 noise value))) := by
  rw [normalize_pass_eq_gridW]
  obtain ⟨r, hr, h₁, h₂, h₃⟩ :=
    gridW_spec size
      (fun x y => (values[x * size + y]?).map
        (fun value => Color32.from_gray (value_255 noise value)))
      pixels
      (fun a b ha hb => by
        have hi : a * size + b < values.length :=
          lt_of_lt_of_le (row_index_lt ha hb) hv
        simp [List.getElem?_eq_getElem hi])
      hp
  refine ⟨r, hr, h₁, h₂, fun i hi => ?_⟩
  obtain ⟨hdec, hdiv, hmod⟩ := index_decompose hi
  have := h₃ (i / size) (i % size) hdiv hmod
  rwa [hdec] at this

/-! ### Cache lemmas -/

theorem cache_resize_size (c : Cache) (m : ℕ) : (c.resize m).size = m := by
  unfold Cache.resize
  split
  · omega
  · rfl

theorem cache_resize_wf (c : Cache) (m : ℕ) (wf : CacheWF c) :
    (c.resize m).values.length = m ∧ (c.resize m).pixels.length = m := by
  unfold Cache.resize
  split
  · obtain ⟨h₁, h₂⟩ := wf
    constructor <;> omega
  · constructor <;> simp

theorem cache_resize_zero (c : Cache) (wf : CacheWF c) :
    c.resize 0 = ⟨[], [], 0⟩ := by
  unfold Cache.resize
  obtain ⟨h₁, h₂⟩ := wf
  split
  · rename_i h
    obtain ⟨v, p, s⟩ := c
    simp only at h₁ h₂ ⊢
    subst h
    simp_all [List.eq_nil_of_length_eq_zero]
  · rfl

/-! ### Behaviour of the render step -/

theorem sample_size_zero (values : List FVal) (settings : Settings)
    (f : ℚ → ℚ → FVal) (h : settings.texture_size = 0) :
    sample values settings f = some values := by
  unfold sample
  rw [h]
  split <;> rfl

theorem normalize_pass_zero (values : List FVal) (pixels : List Color32)
    (noise : Noise) : normalize_pass values pixels 0 noise = some pixels := rfl

/-- An unsupported resolution outcome: the step still succeeds, clears the
dirty flag, reports failure, leaves the scalar buffer as the resize left it
(no resampling), but still runs the normalization loop over that stale
buffer and hands the freshly recomputed pixel buffer to the display sink. -/
theorem step_unsupported (r : Resolvers) (s : AppState) (hc : s.changed = true)
    (hd : dispatch r s.settings = none) (wf : CacheWF s.cache) :
    ∃ t, image_preview_step r s = some t ∧
      t.changed = false ∧
      t.sample_success = false ∧
      t.settings = s.settings ∧
      t.cache.values =
        (s.cache.resize (s.settings.texture_size * s.settings.texture_size)).values ∧
      normalize_pass
        (s.cache.resize (s.settings.texture_size * s.settings.texture_size)).values
        (s.cache.resize (s.settings.texture_size * s.settings.texture_size)).pixels
        s.settings.texture_size s.settings.config.noise = some t.cache.pixels ∧
      t.texture = t.cache.pixels ∧
      t.cache.pixels.length = s.settings.texture_size * s.settings.texture_size := by
  obtain ⟨hvl, hpl⟩ :=
    cache_resize_wf s.cache (s.settings.texture_size * s.settings.texture_size) wf
  obtain ⟨ps, hps, hpslen, _, _⟩ :=
    normalize_pass_spec
      (s.cache.resize (s.settings.texture_size * s.settings.texture_size)).values
      (s.cache.resize (s.settings.texture_size * s.settings.texture_size)).pixels
      s.settings.texture_size s.settings.config.noise
      (le_of_eq hvl.symm) (le_of_eq hpl.symm)
  let C := s.cache.resize (s.settings.texture_size * s.settings.texture_size)
  refine ⟨{ s with
            changed := false
            sample_success := false
            cache := ⟨C.values, ps, C.size⟩
            texture := ps },
    ?_, rfl, rfl, rfl, rfl, ?_, rfl, ?_⟩
  · simp only [image_preview_step, hc, if_true, hd, hps]
  · exact hps
  · simp only
    omega

/-- A supported resolution outcome: the step succeeds, clears the dirty
flag, reports success, and produces a pixel buffer of length exactly
`N * N` whose entry at every index is fully determined by the settings and
the resolved sampler. -/
theorem step_supported (r : Resolvers) (s : AppState) (f : ℚ → ℚ → FVal)
    (hc : s.changed = true) (hd : dispatch r s.settings = some f)
    (wf : CacheWF s.cache) :
    ∃ t, image_preview_step r s = some t ∧
      t.changed = false ∧
      t.sample_success = true ∧
      t.settings = s.settings ∧
      t.texture = t.cache.pixels ∧
      t.cache.pixels.length = s.settings.texture_size * s.settings.texture_size ∧
      (∀ i, i < s.settings.texture_size * s.settings.texture_size →
        t.cache.pixels[i]? =
          some (Color32.from_gray (value_255 s.settings.config.noise
            (f (sample_x s.settings (i % s.settings.texture_size))
               (sample_y s.settings (i / s.settings.texture_size)))))) := by
  obtain ⟨hvl, hpl⟩ :=
    cache_resize_wf s.cache (s.settings.texture_size * s.settings.texture_size) wf
  obtain ⟨vs, hvs, hvslen, _, hvsidx⟩ :=
    sample_spec_idx
      (s.cache.resize (s.settings.texture_size * s.settings.texture_size)).values
      s.settings f (le_of_eq hvl.symm)
  obtain ⟨ps, hps, hpslen, _, hpsidx⟩ :=
    normalize_pass_spec vs
      (s.cache.resize (s.settings.texture_size * s.settings.texture_size)).pixels
      s.settings.texture_size s.settings.config.noise
      (by omega) (le_of_eq hpl.symm)
  let C := s.cache.resize (s.settings.texture_size * s.settings.texture_size)
  refine ⟨{ s with
            changed := false
            sample_success := true
            cache := ⟨vs, ps, C.size⟩
            texture := ps },
    ?_, rfl, rfl, rfl, rfl, ?_, ?_⟩
  · simp only [image_preview_step, hc, if_true, hd, hvs, hps]
  · simp only
    omega
  · intro i hi
    simp only
    rw [hpsidx i hi, hvsidx i hi]
    rfl

/-! ### Small helper lemmas about coordinates and the saturating cast -/

theorem sample_x_eq (settings : Settings) (ix : ℕ) :
    sample_x settings ix =
      if settings.config.tileable then
        (ix : ℚ) / (settings.texture_size : ℚ) + settings.x
      else
        ((ix : ℚ) / (settings.texture_size : ℚ)) * 2 - 1 + settings.x := by
  unfold sample_x
  split <;> ring

theorem sample_y_eq (settings : Settings) (iy : ℕ) :
    sample_y settings iy =
      if settings.config.tileable then
        (iy : ℚ) / (settings.texture_size : ℚ) + settings.y
      else
        ((iy : ℚ) / (settings.texture_size : ℚ)) * 2 - 1 + settings.y := by
  unfold sample_y
  split <;> ring

theorem castU8_le_255 (v : FVal) : castU8 v ≤ 255 := by
  cases v with
  | nan => exact Nat.zero_le _
  | inf pos =>
    show (if pos then 255 else 0) ≤ 255
    split <;> omega
  | fin q =>
    show (if q ≤ 0 then 0 else min 255 q.floor.toNat) ≤ 255
    split
    · omega
    · exact min_le_left _ _

theorem rat_floor_eq_intFloor (q : ℚ) : q.floor = ⌊q⌋ := by
  rw [Rat.floor_def', Rat.floor_def]

/-! ### Claim theorems -/

/-- C2, counterexample. The claim places the value of grid cell `(ix, iy)`
at linear index `ix * N + iy`; the code (`app.rs:585`) computes
`i = y * size + x`, i.e. `iy * N + ix`. On a 2×2 tileable grid with zero
shift and the sampler returning its x coordinate, the buffer the code fills
holds `1/2` at index 1 (the value of cell `(1, 0)`), while the layout the
claim asserts holds `0` there (the value of cell `(0, 1)`). -/
theorem c2_counterexample :
    (sample (List.replicate 4 (.fin 0)) c2_settings (fun x _ => .fin x)).bind
        (fun r => r[1]?) = some (.fin (1/2)) ∧
    (claim_C2_layout c2_settings (fun x _ => .fin x))[1]? = some (.fin 0) ∧
    FVal.fin (1/2) ≠ FVal.fin 0 := by
  refine ⟨?_, ?_, by simp only [ne_eq, FVal.fin.injEq]; norm_num⟩
  · obtain ⟨r, hr, _, _, hidx⟩ :=
      sample_spec (List.replicate 4 (.fin 0)) c2_settings (fun x _ => .fin x)
        (by simp [c2_settings, DEFAULT_SETTINGS])
    rw [hr, Option.some_bind]
    have h := hidx 0 1 (by simp [c2_settings, DEFAULT_SETTINGS])
      (by simp [c2_settings, DEFAULT_SETTINGS])
    norm_num [c2_settings, DEFAULT_SETTINGS, DEFAULT_CONFIG, sample_x] at h
    exact h
  · rw [claim_C2_layout, List.getElem?_map, List.getElem?_range
      (by simp [c2_settings, DEFAULT_SETTINGS])]
    norm_num [c2_settings, DEFAULT_SETTINGS, DEFAULT_CONFIG, sample_x]

/-- C2, amended: for every grid cell `(ix, iy)` in `[0, N)²`, the value
computed for that cell is written to the output buffer at linear index
`i = iy * N + ix`, where `ix` is the index appearing in the x-coordinate
formula and `iy` the index appearing in the y-coordinate formula. -/
theorem c2_amended (settings : Settings) (f : ℚ → ℚ → FVal)
    (values : List FVal)
    (hlen : settings.texture_size * settings.texture_size ≤ values.length)
    (ix iy : ℕ) (hx : ix < settings.texture_size)
    (hy : iy < settings.texture_size) :
    ∃ r, sample values settings f = some r ∧
      r[iy * settings.texture_size + ix]? =
        some (f (sample_x settings ix) (sample_y settings iy)) := by
  obtain ⟨r, hr, _, _, h⟩ := sample_spec values settings f hlen
  exact ⟨r, hr, h iy ix hy hx⟩

/-- C2, witness for the amended theorem: on a 2×2 grid the value of cell
`(ix, iy) = (1, 0)` lands at index `0 * 2 + 1 = 1`. -/
theorem c2_witness :
    ∃ r, sample (List.replicate 4 (.fin 0)) c2_settings
        (fun x _ => .fin x) = some r ∧
      r[(0 : ℕ) * c2_settings.texture_size + 1]? =
        some ((fun (x : ℚ) (_ : ℚ) => FVal.fin x)
          (sample_x c2_settings 1) (sample_y c2_settings 0)) :=
  c2_amended c2_settings (fun x _ => .fin x)
    (List.replicate 4 (.fin 0)) (by decide) 1 0 (by decide) (by decide)

/-- C3: for every grid index `(ix, iy)` in `[0, N)²` and every shift, the
fill evaluates the sampler at `x = ix/N + shift.x`, `y = iy/N + shift.y`
when tileable, and at `x = (ix/N)*2 - 1 + shift.x`,
`y = (iy/N)*2 - 1 + shift.y` when not; the evaluated value is stored at the
cell's linear index `iy * N + ix`. -/
theorem c3_coordinates (settings : Settings) (f : ℚ → ℚ → FVal)
    (values : List FVal)
    (hlen : settings.texture_size * settings.texture_size ≤ values.length)
    (ix iy : ℕ) (hx : ix < settings.texture_size)
    (hy : iy < settings.texture_size) :
    ∃ r, sample values settings f = some r ∧
      r[iy * settings.texture_size + ix]? = some (f
        (if settings.config.tileable then
          (ix : ℚ) / (settings.texture_size : ℚ) + settings.x
        else
          ((ix : ℚ) / (settings.texture_size : ℚ)) * 2 - 1 + settings.x)
        (if settings.config.tileable then
          (iy : ℚ) / (settings.texture_size : ℚ) + settings.y
        else
          ((iy : ℚ) / (settings.texture_size : ℚ)) * 2 - 1 + settings.y)) := by
  obtain ⟨r, hr, _, _, h⟩ := sample_spec values settings f hlen
  refine ⟨r, hr, ?_⟩
  rw [h iy ix hy hx, sample_x_eq, sample_y_eq]

/-- C3, witness: on a 2×2 non-tileable grid with zero shift, the sampler is
evaluated for cell `(1, 1)` at `((1/2)*2 - 1, (1/2)*2 - 1) = (0, 0)`. -/
theorem c3_witness :
    ∃ r, sample (List.replicate 4 (.fin 0)) c3_settings
        (fun x y => .fin (x + y)) = some r ∧
      r[3]? = some (.fin 0) := by
  obtain ⟨r, hr, hidx⟩ := c3_coordinates c3_settings (fun x y => .fin (x + y))
    (List.replicate 4 (.fin 0)) (by decide) 1 1 (by decide) (by decide)
  refine ⟨r, hr, ?_⟩
  norm_num [c3_settings, DEFAULT_SETTINGS, DEFAULT_CONFIG] at hidx
  exact hidx

/-- C4: normalization follows the two-policy table. `claim_signed_kind` is
the claim's classification; the saturating conversion `castU8` realizes the
`clamp(·, 0, 255)` of the claim. For signed-range kinds the byte is
`castU8 ((raw * 0.5 + 0.5) * 255)`, for distance-based kinds it is
`castU8 (raw * 255)`; `claim_signed_kind` being boolean, every kind falls
under exactly one policy. -/
theorem c4_normalization_policy (noise : Noise) (raw : FVal) :
    (claim_signed_kind noise = true →
      value_255 noise raw =
        castU8 (fmul (fadd (fmul raw (.fin (1/2))) (.fin (1/2))) (.fin 255))) ∧
    (claim_signed_kind noise = false →
      value_255 noise raw = castU8 (fmul raw (.fin 255))) := by
  cases noise <;> simp [value_255, value_01, claim_signed_kind]

/-- C4, witness: both policies exercised at `raw = 1`. -/
theorem c4_witness :
    value_255 .Simplex (.fin 1) =
      castU8 (fmul (fadd (fmul (.fin 1) (.fin (1/2))) (.fin (1/2))) (.fin 255)) ∧
    value_255 .CellDistance (.fin 1) = castU8 (fmul (.fin 1) (.fin 255)) :=
  ⟨(c4_normalization_policy .Simplex (.fin 1)).1 rfl,
   (c4_normalization_policy .CellDistance (.fin 1)).2 rfl⟩

/-- C9: the float-to-u8 conversion is total and saturating — every
normalized byte is at most 255 for every raw input of every kind, NaN and
negative infinity map to 0, positive infinity maps to 255, finite values
below 0 map to 0 and finite values above 255 map to 255 — so the pass
always yields a defined byte in `[0, 255]`. -/
theorem c9_cast_total_saturating (noise : Noise) (raw : FVal) (q : ℚ) :
    value_255 noise raw ≤ 255 ∧
    castU8 .nan = 0 ∧
    castU8 (.inf false) = 0 ∧
    castU8 (.inf true) = 255 ∧
    (q < 0 → castU8 (.fin q) = 0) ∧
    (255 < q → castU8 (.fin q) = 255) := by
  refine ⟨castU8_le_255 _, rfl, rfl, rfl, ?_, ?_⟩
  · intro hq
    show (if q ≤ 0 then 0 else min 255 q.floor.toNat) = 0
    rw [if_pos (le_of_lt hq)]
  · intro hq
    show (if q ≤ 0 then 0 else min 255 q.floor.toNat) = 255
    rw [if_neg (by linarith)]
    have h255 : (255 : ℤ) ≤ q.floor := by
      rw [rat_floor_eq_intFloor]
      exact Int.le_floor.mpr (by exact_mod_cast le_of_lt hq)
    have hto : (255 : ℕ) ≤ q.floor.toNat := by omega
    exact Nat.min_eq_left hto

/-- C9, witness: saturation observed at concrete out-of-range inputs. -/
theorem c9_witness :
    value_255 .Simplex (.fin 300) ≤ 255 ∧
    castU8 (.fin (-5)) = 0 ∧
    castU8 (.fin 999) = 255 :=
  ⟨(c9_cast_total_saturating .Simplex (.fin 300) 0).1,
   (c9_cast_total_saturating .Simplex (.fin 300) (-5)).2.2.2.2.1 (by norm_num),
   (c9_cast_total_saturating .Simplex (.fin 300) 999).2.2.2.2.2 (by norm_num)⟩

/-- C6: `resize` is a complete no-op when the requested size equals the
current size; otherwise it reallocates both buffers to the new length with
scalars zeroed and pixels set to the magenta sentinel, and a repeated
`resize` to the same size is the identity (allocation happens at most
once). -/
theorem c6_resize_policy (c : Cache) (n : ℕ) :
    (n = c.size → c.resize n = c) ∧
    (n ≠ c.size → c.resize n =
      ⟨List.replicate n (.fin 0),
       List.replicate n (Color32.from_rgb 255 0 255), n⟩) ∧
    (c.resize n).resize n = c.resize n := by
  refine ⟨fun h => by simp [Cache.resize, h], fun h => by simp [Cache.resize, h], ?_⟩
  rcases eq_or_ne n c.size with h | h
  · have h1 : c.resize n = c := by simp [Cache.resize, h]
    rw [h1]
    exact h1
  · have h1 : c.resize n =
        ⟨List.replicate n (.fin 0),
         List.replicate n (Color32.from_rgb 255 0 255), n⟩ := by
      simp [Cache.resize, h]
    rw [h1]
    simp [Cache.resize]

/-- C6, witness: resizing the default cache to 2 allocates fresh zero/
magenta buffers, and resizing again to 2 changes nothing. -/
theorem c6_witness :
    Cache.default.resize 2 =
      ⟨List.replicate 2 (.fin 0),
       List.replicate 2 (Color32.from_rgb 255 0 255), 2⟩ ∧
    (Cache.default.resize 2).resize 2 = Cache.default.resize 2 :=
  ⟨(c6_resize_policy Cache.default 2).2.1 (by decide),
   (c6_resize_policy Cache.default 2).2.2⟩

/-- C8: while link-tile-size-to-frequency is active, setting any one of
frequency, tile width or tile height propagates the new value to the other
two, leaving all three equal; while it is inactive, each setter changes
only its own field. -/
theorem c8_link_tile_size (config : Config) (v : ℚ) :
    ((set_frequency true v config).frequency = v ∧
     (set_frequency true v config).tile_width = v ∧
     (set_frequency true v config).tile_height = v) ∧
    ((set_tile_width true v config).frequency = v ∧
     (set_tile_width true v config).tile_width = v ∧
     (set_tile_width true v config).tile_height = v) ∧
    ((set_tile_height true v config).frequency = v ∧
     (set_tile_height true v config).tile_width = v ∧
     (set_tile_height true v config).tile_height = v) ∧
    ((set_frequency false v config).frequency = v ∧
     (set_frequency false v config).tile_width = config.tile_width ∧
     (set_frequency false v config).tile_height = config.tile_height) ∧
    ((set_tile_width false v config).tile_width = v ∧
     (set_tile_width false v config).frequency = config.frequency ∧
     (set_tile_width false v config).tile_height = config.tile_height) ∧
    ((set_tile_height false v config).tile_height = v ∧
     (set_tile_height false v config).frequency = config.frequency ∧
     (set_tile_height false v config).tile_width = config.tile_width) := by
  simp [set_frequency, set_tile_width, set_tile_height]

/-- C1, amended: with an unsupported resolution the render pass still
completes without raising and sets `sample_success` to false, and it does
not resample the scalar buffer; but contrary to the original claim it does
not stop after resolution: the normalization loop still runs over the
retained scalar buffer, and the freshly recomputed pixel buffer is handed
to the display sink. -/
theorem c1_amended (r : Resolvers) (s : AppState) (hc : s.changed = true)
    (hd : dispatch r s.settings = none) (wf : CacheWF s.cache) :
    ∃ t, image_preview_step r s = some t ∧
      t.sample_success = false ∧
      t.cache.values =
        (s.cache.resize (s.settings.texture_size * s.settings.texture_size)).values ∧
      normalize_pass
        (s.cache.resize (s.settings.texture_size * s.settings.texture_size)).values
        (s.cache.resize (s.settings.texture_size * s.settings.texture_size)).pixels
        s.settings.texture_size s.settings.config.noise = some t.cache.pixels ∧
      t.texture = t.cache.pixels := by
  obtain ⟨t, ht, _, hs, _, hv, hn, htex, _⟩ := step_unsupported r s hc hd wf
  exact ⟨t, ht, hs, hv, hn, htex⟩

/-- C1, witness for the amended theorem, at a concrete unsupported state. -/
theorem c1_witness :
    ∃ t, image_preview_step unsupported_resolvers c1_state = some t ∧
      t.sample_success = false ∧
      t.cache.values =
        (c1_state.cache.resize
          (c1_state.settings.texture_size * c1_state.settings.texture_size)).values ∧
      normalize_pass
        (c1_state.cache.resize
          (c1_state.settings.texture_size * c1_state.settings.texture_size)).values
        (c1_state.cache.resize
          (c1_state.settings.texture_size * c1_state.settings.texture_size)).pixels
        c1_state.settings.texture_size c1_state.settings.config.noise =
        some t.cache.pixels ∧
      t.texture = t.cache.pixels :=
  c1_amended unsupported_resolvers c1_state rfl rfl ⟨rfl, rfl⟩

theorem list_len_one_eq {α : Type} :
    ∀ (l : List α) (a : α), l.length = 1 → l[0]? = some a → l = [a]
  | [], _, h1, _ => by simp at h1
  | [x], a, _, h0 => by
      simp only [List.getElem?_cons_zero, Option.some.injEq] at h0
      rw [h0]
  | _ :: _ :: _, _, h1, _ => by simp at h1

theorem value_255_simplex_zero : value_255 .Simplex (.fin 0) = 127 := by
  have h1 : fmul (value_01 .Simplex (.fin 0)) (.fin 255) = .fin (255/2) := by
    show FVal.fin ((0 * (1/2) + 1/2) * 255) = FVal.fin (255/2)
    simp only [FVal.fin.injEq]
    norm_num
  show castU8 (fmul (value_01 .Simplex (.fin 0)) (.fin 255)) = 127
  rw [h1]
  show (if (255/2 : ℚ) ≤ 0 then 0 else min 255 ((255/2 : ℚ)).floor.toNat) = 127
  rw [if_neg (by norm_num), rat_floor_eq_intFloor,
    show ((255:ℚ)/2) = ((255:ℤ):ℚ)/((2:ℕ):ℚ) by norm_num,
    Rat.floor_intCast_div_natCast]
  decide

/-- C1, counterexample: at a concrete unsupported configuration (default
config, 2D, scalar precision against a resolver with no samplers, 1×1
viewport), the pass sets `sample_success = false` but does **not** retain
the previous pixel buffer and does **not** stop after resolution: the
magenta pixel from the previous pass is overwritten by normalizing the
stale scalar buffer (gray 127) and the recomputed buffer is handed to the
display sink. -/
theorem c1_counterexample :
    (image_preview_step unsupported_resolvers c1_state).map
        (fun t => (t.sample_success, t.cache.pixels, t.texture)) =
      some (false, [Color32.from_gray 127], [Color32.from_gray 127]) ∧
    c1_state.cache.pixels = [Color32.from_rgb 255 0 255] ∧
    Color32.from_gray 127 ≠ Color32.from_rgb 255 0 255 := by
  obtain ⟨t, ht, _, hs, _, hv, hn, htex, hplen⟩ :=
    step_unsupported unsupported_resolvers c1_state rfl rfl ⟨rfl, rfl⟩
  have hres : c1_state.cache.resize
      (c1_state.settings.texture_size * c1_state.settings.texture_size) =
      c1_state.cache := rfl
  rw [hres] at hn
  obtain ⟨ps, hps, hpslen, _, hpsidx⟩ :=
    normalize_pass_spec c1_state.cache.values c1_state.cache.pixels
      c1_state.settings.texture_size c1_state.settings.config.noise
      (by decide) (by decide)
  rw [hps] at hn
  have hpst : ps = t.cache.pixels := Option.some.inj hn
  have h0 : ps[0]? = some (Color32.from_gray 127) := by
    rw [hpsidx 0 (by decide)]
    have hv0 : c1_state.cache.values[0]? = some (.fin 0) := rfl
    rw [hv0]
    show some (Color32.from_gray (value_255 .Simplex (.fin 0))) = _
    rw [value_255_simplex_zero]
  have hone : t.cache.pixels = [Color32.from_gray 127] :=
    list_len_one_eq _ _ (hplen.trans rfl) (hpst ▸ h0)
  rw [ht]
  refine ⟨?_, rfl, by decide⟩
  show some (t.sample_success, t.cache.pixels, t.texture) = _
  rw [hs, htex, hone]

/-- C5: for fixed settings (config, dimension, shift, resolution, simd) and
a fixed resolver, two render passes started from arbitrary (possibly
different) well-formed cache states either both fail resolution the same
way, or both succeed and produce byte-identical pixel buffers and hand the
same buffer to the display sink. -/
theorem c5_determinism (r : Resolvers) (s₁ s₂ : AppState)
    (hset : s₁.settings = s₂.settings) (h₁ : s₁.changed = true)
    (h₂ : s₂.changed = true) (w₁ : CacheWF s₁.cache) (w₂ : CacheWF s₂.cache) :
    ∃ t₁ t₂, image_preview_step r s₁ = some t₁ ∧
      image_preview_step r s₂ = some t₂ ∧
      t₁.sample_success = t₂.sample_success ∧
      (t₁.sample_success = true →
        t₁.cache.pixels = t₂.cache.pixels ∧ t₁.texture = t₂.texture) := by
  cases hd : dispatch r s₁.settings with
  | none =>
    have hd₂ : dispatch r s₂.settings = none := by rw [← hset]; exact hd
    obtain ⟨t₁, ht₁, _, hs₁, _, _, _, _, _⟩ := step_unsupported r s₁ h₁ hd w₁
    obtain ⟨t₂, ht₂, _, hs₂, _, _, _, _, _⟩ := step_unsupported r s₂ h₂ hd₂ w₂
    refine ⟨t₁, t₂, ht₁, ht₂, by rw [hs₁, hs₂], fun h => ?_⟩
    rw [hs₁] at h
    exact Bool.noConfusion h
  | some f =>
    have hd₂ : dispatch r s₂.settings = some f := by rw [← hset]; exact hd
    obtain ⟨t₁, ht₁, _, hs₁, _, htex₁, hlen₁, hchar₁⟩ :=
      step_supported r s₁ f h₁ hd w₁
    obtain ⟨t₂, ht₂, _, hs₂, _, htex₂, hlen₂, hchar₂⟩ :=
      step_supported r s₂ f h₂ hd₂ w₂
    have hpix : t₁.cache.pixels = t₂.cache.pixels := by
      apply List.ext_getElem?
      intro i
      by_cases hi : i < s₁.settings.texture_size * s₁.settings.texture_size
      · rw [hchar₁ i hi]
        have hi₂ : i < s₂.settings.texture_size * s₂.settings.texture_size := by
          rw [← hset]; exact hi
        rw [hchar₂ i hi₂, hset]
      · have hi₂ : ¬ i < s₂.settings.texture_size * s₂.settings.texture_size := by
          rw [← hset]; exact hi
        rw [List.getElem?_eq_none (by omega), List.getElem?_eq_none (by omega)]
    refine ⟨t₁, t₂, ht₁, ht₂, by rw [hs₁, hs₂], fun _ => ⟨hpix, ?_⟩⟩
    rw [htex₁, htex₂, hpix]

/-- C5, witness: the same settings drive two states with different caches
and texture histories to the same pixel output. -/
theorem c5_witness :
    ∃ t₁ t₂, image_preview_step const_resolvers c5_state_a = some t₁ ∧
      image_preview_step const_resolvers c5_state_b = some t₂ ∧
      t₁.sample_success = t₂.sample_success ∧
      (t₁.sample_success = true →
        t₁.cache.pixels = t₂.cache.pixels ∧ t₁.texture = t₂.texture) :=
  c5_determinism const_resolvers c5_state_a c5_state_b rfl rfl rfl
    ⟨rfl, rfl⟩ ⟨rfl, rfl⟩

/-- C7: with resolution 0 the render pass terminates normally for every
configuration and resolver — no out-of-bounds access (`some` outcome) —
and the produced pixel grid and the buffer handed to the sink are empty. -/
theorem c7_zero_resolution (r : Resolvers) (s : AppState) (hc : s.changed = true)
    (hsize : s.settings.texture_size = 0) (wf : CacheWF s.cache) :
    ∃ t, image_preview_step r s = some t ∧
      t.cache.pixels = [] ∧ t.texture = [] := by
  cases hd : dispatch r s.settings with
  | none =>
    obtain ⟨t, ht, _, _, _, _, _, htex, hplen⟩ := step_unsupported r s hc hd wf
    have hlen0 : t.cache.pixels.length = 0 := by rw [hplen, hsize]
    have hpix : t.cache.pixels = [] := List.eq_nil_of_length_eq_zero hlen0
    exact ⟨t, ht, hpix, by rw [htex, hpix]⟩
  | some f =>
    obtain ⟨t, ht, _, _, _, htex, hplen, _⟩ := step_supported r s f hc hd wf
    have hlen0 : t.cache.pixels.length = 0 := by rw [hplen, hsize]
    have hpix : t.cache.pixels = [] := List.eq_nil_of_length_eq_zero hlen0
    exact ⟨t, ht, hpix, by rw [htex, hpix]⟩

/-- C7, witness: concrete zero-resolution pass. -/
theorem c7_witness :
    ∃ t, image_preview_step unsupported_resolvers c7_state = some t ∧
      t.cache.pixels = [] ∧ t.texture = [] :=
  c7_zero_resolution unsupported_resolvers c7_state rfl rfl ⟨rfl, rfl⟩

/-- C10: a completed render pass always leaves the dirty flag cleared —
also when resolution failed — and a pass started with the flag clear is a
complete no-op (the state is returned unchanged, so neither resolution nor
sampling is re-attempted until some tracked field mutation sets the flag
again). -/
theorem c10_dirty_flag (r : Resolvers) (s : AppState) :
    (∀ t, image_preview_step r s = some t → t.changed = false) ∧
    (s.changed = false → image_preview_step r s = some s) := by
  constructor
  · intro t ht
    by_cases hc : s.changed = true
    · simp only [image_preview_step, hc, if_true] at ht
      split at ht
      · split at ht
        · split at ht
          · cases ht
            rfl
          · exact absurd ht (by simp)
        · exact absurd ht (by simp)
      · split at ht
        · cases ht
          rfl
        · exact absurd ht (by simp)
    · have hc' : s.changed = false := by simpa using hc
      have hstep : image_preview_step r s = some s := by
        simp [image_preview_step, hc']
      rw [hstep] at ht
      cases ht
      exact hc'
  · intro hc
    simp [image_preview_step, hc]

/-- C10, witness: a clean state passes through the render step unchanged. -/
theorem c10_witness :
    image_preview_step unsupported_resolvers c10_state = some c10_state ∧
    c10_state.changed = false := by
  have h := c10_dirty_flag unsupported_resolvers c10_state
  have hstep := h.2 rfl
  exact ⟨hstep, h.1 c10_state hstep⟩

end NoiseDemo
